import Mathlib

/-!
Verification of the RNN-Transducer core in `src/model.py` (open_stt_e2e).

The development shallowly embeds the length arithmetic (`decrease_dim`,
`is_time_decrease`, `MaskConv.output_time`), the temporal masking of
`MaskConv.forward`, the joint network (`Transducer.forward_joint`,
`Transducer.joint`) and the greedy decode loop (`Transducer.greedy_decode`)
as executable Lean functions.  Tensors are modelled as functions out of
`Fin`-indexed coordinates with exact rational values; machine integers are
`Int` with Python's floor division (`Int.fdiv`).  The numerics of external
library primitives (the LSTM cell inside `LanguageModel.step_features`, the
transcendental `log_softmax`) are opaque parameters, as the specification
treats them as external collaborators; `pack_padded_sequence` is a library
routine absent from the repository and is modelled from the specification's
stated contract.
-/

/-! ## Length arithmetic (`decrease_dim`, `is_time_decrease`, `output_time`)

`src/model.py` lines 7-19 and 33-36.  A layer of the convolution stack is
either a 2-d convolution (carrying kernel size, stride, padding and dilation
as (frequency, time) pairs, plus the number of output channels) or one of the
shape-preserving layers (`BatchNorm2d`, `ReLU`, `Dropout`). -/

inductive TLayer : Type
  | conv2d (kernel_size stride padding dilation : Int × Int) (out_channels : Nat)
  | batchNorm2d
  | relu
  | dropout
deriving DecidableEq

/-- `pair[dim]` for a (frequency, time) parameter pair: index 0 is the
frequency axis, index 1 the time axis. -/
def dimSel (pr : Int × Int) (dim : Nat) : Int :=
  if dim = 0 then pr.1 else pr.2

/-- `decrease_dim(x, layer, dim)` from `src/model.py` lines 7-15: for a
`Conv2d` layer it returns `(x + 2*p - d*(f-1) - 1) // s + 1` (Python floor
division, hence `Int.fdiv`); every other layer returns `x` unchanged. -/
def decrease_dim (x : Int) (layer : TLayer) (dim : Nat := 1) : Int :=
  match layer with
  | .conv2d k s p d _ =>
      Int.fdiv (x + 2 * dimSel p dim - dimSel d dim * (dimSel k dim - 1) - 1) (dimSel s dim) + 1
  | _ => x

/-- `is_time_decrease(layer)` from `src/model.py` lines 18-19. -/
def is_time_decrease (layer : TLayer) : Bool :=
  decrease_dim 100 layer != 100

/-- `MaskConv.output_time` from `src/model.py` lines 33-36: fold
`decrease_dim` over the layer stack along the time axis. -/
def output_time (layers : List TLayer) (x : Int) : Int :=
  layers.foldl (fun a layer => decrease_dim a layer 1) x

/-- Whether a layer is a `Conv2d` (the `type(layer) != nn.modules.conv.Conv2d`
test of `decrease_dim`). -/
def isConv2d : TLayer → Bool
  | .conv2d _ _ _ _ _ => true
  | _ => false

/-- The spec's sequential description of the stack-level length computation:
apply the single-transform formula transform by transform, in stack order. -/
def lengthSeq : List TLayer → Int → Int
  | [], x => x
  | layer :: rest, x => lengthSeq rest (decrease_dim x layer 1)

/-! ## Temporal masking (`MaskConv.forward`, `src/model.py` lines 63-74)

Tensors of shape (N, C, D, T) are functions `Fin n → Fin c → Fin d → Fin t → ℚ`.
Valid lengths are natural numbers (the data-model invariant of §3 makes
`ValidLength` non-negative). -/

/-- The mask built in `MaskConv.forward` lines 65-71: start at zeros; for
each sample `i` with `start = lengths[i]` and `length = t - start`, when
`length > 0` fill positions `[start, start + length) = [start, t)` with 1.
The mask has shape (n, 1, 1, t) and is indexed here by (sample, timestep). -/
def conv_mask (n t : Nat) (lengths : Fin n → Nat) : Fin n → Fin t → Bool :=
  fun i tt =>
    if 0 < t - lengths i then decide (lengths i ≤ tt.val) else false

/-- `x.masked_fill(mask, 0)` from line 74, with the (n, 1, 1, t) mask
broadcast over the channel and feature axes. -/
def masked_fill {n c d t : Nat} (x : Fin n → Fin c → Fin d → Fin t → ℚ)
    (mask : Fin n → Fin t → Bool) : Fin n → Fin c → Fin d → Fin t → ℚ :=
  fun i ch dd tt => if mask i tt then 0 else x i ch dd tt

/-- One application of the temporal mask: build the mask from the current
lengths and time extent, then zero the masked positions. -/
def mask_apply {n c d t : Nat} (x : Fin n → Fin c → Fin d → Fin t → ℚ)
    (lengths : Fin n → Nat) : Fin n → Fin c → Fin d → Fin t → ℚ :=
  masked_fill x (conv_mask n t lengths)

/-! ## Helper lemma: Python floor division is the rational floor. -/

theorem fdiv_eq_rat_floor (a s : Int) (hs : 0 < s) :
    Int.fdiv a s = ⌊(a : ℚ) / (s : ℚ)⌋ := by
  rw [Int.fdiv_eq_ediv a hs.le]
  have h1 : s = ((s.toNat : Nat) : Int) := by
    simp [Int.toNat_of_nonneg hs.le]
  rw [h1]
  have h2 : (((s.toNat : Nat) : Int) : ℚ) = ((s.toNat : Nat) : ℚ) := by push_cast; ring
  rw [h2]
  exact (Rat.floor_intCast_div_natCast a s.toNat).symm

/-! ## Claim C4: output-length formula and stack composition -/

/-- C4: for every input length `L` and every time-axis-affecting transform
with padding `p`, dilation `d`, kernel `f` and stride `s > 0`, `decrease_dim`
returns `floor((L + 2p - d*(f-1) - 1) / s) + 1` with exact floor division;
every other transform returns `L` unchanged; and the stack-level computation
`output_time` over `k` transforms equals applying the single-transform
formula `k` times in sequence, transform by transform in stack order. -/
theorem output_length_spec (L : Int) (k s p d : Int × Int) (ch : Nat)
    (hs : 0 < s.2) :
    decrease_dim L (.conv2d k s p d ch) 1
        = ⌊((L + 2 * p.2 - d.2 * (k.2 - 1) - 1 : Int) : ℚ) / ((s.2 : Int) : ℚ)⌋ + 1
      ∧ (∀ (layer : TLayer) (x : Int), isConv2d layer = false → decrease_dim x layer 1 = x)
      ∧ (∀ (layers : List TLayer) (x : Int), output_time layers x = lengthSeq layers x) := by
  refine ⟨?_, ?_, ?_⟩
  · show Int.fdiv (L + 2 * dimSel p 1 - dimSel d 1 * (dimSel k 1 - 1) - 1) (dimSel s 1) + 1 = _
    have hd1 : ∀ pr : Int × Int, dimSel pr 1 = pr.2 := fun pr => rfl
    rw [hd1, hd1, hd1, hd1, fdiv_eq_rat_floor _ _ hs]
  · intro layer x hlayer
    cases layer with
    | conv2d k s p d ch => simp [isConv2d] at hlayer
    | batchNorm2d => rfl
    | relu => rfl
    | dropout => rfl
  · intro layers
    induction layers with
    | nil => intro x; rfl
    | cons layer rest ih =>
        intro x
        show output_time rest (decrease_dim x layer 1) = lengthSeq rest (decrease_dim x layer 1)
        exact ih _

/-- Witness for C4: the first convolution of the acoustic stack (kernel 11,
stride 2, padding 5, dilation 1 on the time axis) at input length 7. -/
theorem output_length_spec_witness :
    0 < ((2, 2) : Int × Int).2 ∧ decrease_dim 7 (.conv2d (21, 11) (2, 2) (10, 5) (1, 1) 32) 1 = 4 := by
  refine ⟨by decide, ?_⟩
  have h := output_length_spec 7 (21, 11) (2, 2) (10, 5) (1, 1) 32 (by decide)
  rw [h.1]
  norm_num

/-! ## Claim C5: temporal-mask correctness -/

/-- C5: after applying the temporal mask built from the per-sample valid
lengths, every value of sample `i` (across all channels and feature rows) at
a timestep at or beyond `lengths i` is exactly zero, every value at a
timestep below `lengths i` is unchanged, and when `lengths i ≥ t` no position
of sample `i` is zeroed. -/
theorem mask_apply_spec {n c d t : Nat} (x : Fin n → Fin c → Fin d → Fin t → ℚ)
    (lengths : Fin n → Nat) (i : Fin n) (ch : Fin c) (dd : Fin d) (tt : Fin t) :
    (lengths i ≤ tt.val → mask_apply x lengths i ch dd tt = 0)
      ∧ (tt.val < lengths i → mask_apply x lengths i ch dd tt = x i ch dd tt)
      ∧ (t ≤ lengths i → mask_apply x lengths i ch dd tt = x i ch dd tt) := by
  refine ⟨?_, ?_, ?_⟩
  · intro h
    have hlt : lengths i < t := Nat.lt_of_le_of_lt h tt.isLt
    simp [mask_apply, masked_fill, conv_mask, Nat.sub_pos_of_lt hlt, h]
  · intro h
    simp only [mask_apply, masked_fill, conv_mask]
    have hdec : ¬ lengths i ≤ tt.val := Nat.not_le_of_lt h
    by_cases hpos : 0 < t - lengths i <;> simp [hpos, hdec]
  · intro h
    have hz : ¬ 0 < t - lengths i := by omega
    simp [mask_apply, masked_fill, conv_mask, hz]

/-- Witness for C5: a (1, 1, 1, 3) tensor with constant value 5; valid length
2 zeroes timestep 2 and keeps timestep 1; valid length 4 ≥ 3 keeps all. -/
theorem mask_apply_spec_witness :
    ((2 : Nat) ≤ 2 ∧ @mask_apply 1 1 1 3 (fun _ _ _ _ => 5) (fun _ => 2) 0 0 0 2 = 0)
      ∧ ((1 : Nat) < 2 ∧ @mask_apply 1 1 1 3 (fun _ _ _ _ => 5) (fun _ => 2) 0 0 0 1 = 5)
      ∧ ((3 : Nat) ≤ 4 ∧ @mask_apply 1 1 1 3 (fun _ _ _ _ => 5) (fun _ => 4) 0 0 0 0 = 5) :=
  ⟨⟨by decide, (mask_apply_spec (fun _ _ _ _ => 5) (fun _ => 2) 0 0 0 2).1 (by decide)⟩,
   ⟨by decide, (mask_apply_spec (fun _ _ _ _ => 5) (fun _ => 2) 0 0 0 1).2.1 (by decide)⟩,
   ⟨by decide, (mask_apply_spec (fun _ _ _ _ => 5) (fun _ => 4) 0 0 0 0).2.2 (by decide)⟩⟩

/-! ## Packing checks (`pack_padded_sequence` call sites)

`AcousticModel.forward` (line 110) calls `pack_padded_sequence(x, lengths)`
with sorted-order enforcement on (the library default); `LanguageModel.forward`
(line 145) calls `pack_padded_sequence(x, lengths + 1, enforce_sorted=False)`.
The packing routine itself is library code absent from the repository, so its
validity checks are modelled from the specification. -/

inductive PackError : Type
  | notSorted
  | lengthExceeds
  | nonPositive
deriving DecidableEq

/-- Whether a list of lengths is in non-increasing order. -/
def sortedDesc : List Int → Bool
  | [] => true
  | [_] => true
  | a :: b :: rest => (b ≤ a : Bool) && sortedDesc (b :: rest)

/-- Modelled from the spec: `torch.nn.utils.rnn.pack_padded_sequence` is not
part of this repository; §7 states that a declared sequence length exceeding
the tensor's time extent, or a non-positive one, is a LengthViolation that
fails fast, and the `enforce_sorted` flag (claim source) demands lengths in
decreasing order.  The model returns the first applicable error, otherwise
success. -/
def pack_padded_sequence (lengths : List Int) (timeExtent : Int)
    (enforce_sorted : Bool) : Except PackError Unit :=
  if enforce_sorted && !sortedDesc lengths then .error .notSorted
  else if lengths.any (fun l => timeExtent < l) then .error .lengthExceeds
  else if lengths.any (fun l => l ≤ 0) then .error .nonPositive
  else .ok ()

/-- The convolution stack of `AcousticModel.__init__` (lines 88-93):
`Conv2d(1, 32, (21,11), stride (2,2), padding (10,5))` and
`Conv2d(32, 32, (11,11), stride (2,1), padding (5,5))` interleaved with
`BatchNorm2d`, `ReLU` and `Dropout` (dilation defaults to 1). -/
def am_conv_layers : List TLayer :=
  [.conv2d (21, 11) (2, 2) (10, 5) (1, 1) 32, .batchNorm2d, .relu, .dropout,
   .conv2d (11, 11) (2, 1) (5, 5) (1, 1) 32, .batchNorm2d, .relu, .dropout]

/-- The length-checking path of `AcousticModel.forward` (lines 106-110): the
conv stack maps each declared length and the tensor's time extent through the
time-axis formula, then the result is packed with sorted-order enforcement
on.  The mask loop inside `MaskConv.forward` itself never raises on an
over-long length (it silently skips the fill when `t - start ≤ 0`), so the
only validity checks on this path are the packing ones. -/
def am_forward_check (lengths : List Int) (timeExtent : Int) : Except PackError Unit :=
  pack_padded_sequence (lengths.map (output_time am_conv_layers))
    (output_time am_conv_layers timeExtent) true

/-- The length-checking path of `LanguageModel.forward` (lines 141-145): a
synthetic start row is prepended (so the packed tensor has time extent
`T + 1`) and the batch is packed by `lengths + 1` with sorted-order
enforcement off. -/
def lm_forward_check (lengths : List Int) (timeExtent : Int) : Except PackError Unit :=
  pack_padded_sequence (lengths.map (fun l => l + 1)) (timeExtent + 1) false

/-! ## Claims C8 and C9: length violations and batch ordering -/

/-- Helper: exact characterization of when the encoder's length-check path
succeeds. -/
theorem am_check_ok_iff (lengths : List Int) (tExt : Int) :
    am_forward_check lengths tExt = Except.ok () ↔
      (sortedDesc (lengths.map (output_time am_conv_layers)) = true
        ∧ ∀ m ∈ lengths.map (output_time am_conv_layers),
            0 < m ∧ m ≤ output_time am_conv_layers tExt) := by
  unfold am_forward_check pack_padded_sequence
  cases hs : sortedDesc (lengths.map (output_time am_conv_layers)) with
  | false => simp [hs]
  | true =>
      cases hex : (lengths.map (output_time am_conv_layers)).any
          (fun l => decide (output_time am_conv_layers tExt < l)) with
      | true =>
          simp only [hs, hex, Bool.not_true, Bool.and_false, if_false, if_true]
          simp only [List.any_eq_true, decide_eq_true_eq] at hex
          obtain ⟨m, hm, hgt⟩ := hex
          constructor
          · intro h; exact absurd h (by simp)
          · intro h; exact absurd (h.2 m hm).2 (not_le.mpr hgt)
      | false =>
          cases hnp : (lengths.map (output_time am_conv_layers)).any
              (fun l => decide (l ≤ 0)) with
          | true =>
              simp only [hs, hex, hnp, Bool.not_true, Bool.and_false, if_false, if_true]
              simp only [List.any_eq_true, decide_eq_true_eq] at hnp
              obtain ⟨m, hm, hle⟩ := hnp
              constructor
              · intro h; exact absurd h (by simp)
              · intro h; exact absurd (h.2 m hm).1 (not_lt.mpr hle)
          | false =>
              simp only [hs, hex, hnp, Bool.not_true, Bool.and_false, if_false]
              simp only [List.any_eq_false, decide_eq_true_eq] at hex hnp
              constructor
              · intro _
                refine ⟨trivial, fun m hm => ?_⟩
                have h1 := hex m hm
                have h2 := hnp m hm
                omega
              · intro _; trivial

/-- Helper: the time-axis effect of the whole acoustic conv stack in closed
form. -/
theorem am_time_eval (L : Int) :
    output_time am_conv_layers L = Int.fdiv (L - 1) 2 + 1 := by
  have h0 : output_time am_conv_layers L
      = Int.fdiv (Int.fdiv (L + 2 * 5 - 1 * (11 - 1) - 1) 2 + 1 + 2 * 5 - 1 * (11 - 1) - 1) 1 + 1 :=
    rfl
  rw [h0, Int.fdiv_one]
  have e1 : L + 2 * 5 - 1 * (11 - 1) - 1 = L - 1 := by ring
  rw [e1]
  ring

/-- Helper: the acoustic conv stack maps any negative declared length to a
non-positive post-transform length. -/
theorem am_time_nonpos {L : Int} (hL : L < 0) : output_time am_conv_layers L ≤ 0 := by
  rw [am_time_eval]
  have h2 : Int.fdiv (L - 1) 2 ≤ Int.fdiv (-2) 2 := by
    rw [Int.fdiv_eq_ediv _ (by omega), Int.fdiv_eq_ediv _ (by omega)]
    exact Int.ediv_le_ediv (by omega) (by omega)
  have h3 : Int.fdiv (-2) 2 = -1 := by decide
  omega

/-- C8 counterexample: the declared length 6 exceeds the tensor's time extent
5, yet the encoder's forward path raises no error — the stride-2 arithmetic
collapses both to post-transform length 3, so the claimed fail-fast behaviour
does not occur. -/
theorem am_forward_check_counterexample :
    am_forward_check [6] 5 = Except.ok () ∧ (5 : Int) < 6 :=
  ⟨rfl, by decide⟩

/-- C8 (amended): the encoder's forward pass succeeds exactly when the
post-transform lengths are non-increasing, positive, and bounded by the
post-transform time extent; in particular every negative declared length
fails fast (its post-transform length is non-positive), but a declared
length exceeding the time extent only fails when its post-transform length
still exceeds the post-transform extent. -/
theorem am_forward_check_amended (lengths : List Int) (tExt : Int) :
    (am_forward_check lengths tExt = Except.ok () ↔
      (sortedDesc (lengths.map (output_time am_conv_layers)) = true
        ∧ ∀ m ∈ lengths.map (output_time am_conv_layers),
            0 < m ∧ m ≤ output_time am_conv_layers tExt))
    ∧ (∀ L : Int, L < 0 → am_forward_check [L] tExt ≠ Except.ok ()) := by
  refine ⟨am_check_ok_iff lengths tExt, ?_⟩
  intro L hL hok
  have h := (am_check_ok_iff [L] tExt).mp hok
  have hm : output_time am_conv_layers L ∈ [L].map (output_time am_conv_layers) := by
    simp
  have hp := (h.2 _ hm).1
  have hn := am_time_nonpos hL
  omega

/-- Witness for C8 (amended): a valid declared length 4 with extent 10 packs
fine, and the negative declared length -3 is rejected. -/
theorem am_forward_check_amended_witness :
    am_forward_check [4] 10 = Except.ok () ∧
      ((-3 : Int) < 0 ∧ am_forward_check [-3] 10 ≠ Except.ok ()) :=
  ⟨((am_forward_check_amended [4] 10).1).mpr ⟨by decide, by decide⟩,
   by decide, (am_forward_check_amended [] 10).2 (-3) (by decide)⟩

/-- C9 counterexample: the batch with declared lengths [5, 6] is not in
decreasing order, yet the encoder's forward path raises no error: both
lengths collapse to post-transform length 3, which is non-increasing, so
sorted-order enforcement never fires. -/
theorem pack_order_counterexample :
    sortedDesc [5, 6] = false ∧ am_forward_check [5, 6] 6 = Except.ok () :=
  ⟨by decide, rfl⟩

/-- C9 (amended): the encoder packs with sorted-order enforcement enabled and
raises exactly when the post-transform lengths are not in non-increasing
order (an unsorted input batch whose post-transform lengths tie back into
non-increasing order passes), while the prediction network's sequence-mode
forward packs with sorted-order enforcement disabled and accepts valid
lengths in any batch order. -/
theorem pack_order_spec :
    (∀ (lengths : List Int) (tExt : Int),
        sortedDesc (lengths.map (output_time am_conv_layers)) = false →
          am_forward_check lengths tExt = Except.error PackError.notSorted)
      ∧ (∀ (lengths : List Int) (tExt : Int),
          (∀ l ∈ lengths, 0 ≤ l ∧ l ≤ tExt) →
            lm_forward_check lengths tExt = Except.ok ()) := by
  constructor
  · intro lengths tExt hs
    unfold am_forward_check pack_padded_sequence
    simp [hs]
  · intro lengths tExt hall
    unfold lm_forward_check pack_padded_sequence
    have c2 : (lengths.map (fun l => l + 1)).any
        (fun l => decide (tExt + 1 < l)) = false := by
      simp only [List.any_eq_false, List.mem_map, decide_eq_true_eq]
      rintro m ⟨l, hl, rfl⟩
      have := (hall l hl).2
      omega
    have c3 : (lengths.map (fun l => l + 1)).any (fun l => decide (l ≤ 0)) = false := by
      simp only [List.any_eq_false, List.mem_map, decide_eq_true_eq]
      rintro m ⟨l, hl, rfl⟩
      have := (hall l hl).1
      omega
    simp [c2, c3]

/-- Witness for C9 (amended): lengths [1, 5] keep their post-transform order
[1, 3], which is increasing, so the encoder rejects the batch; the prediction
network accepts the equally unsorted valid batch [2, 7]. -/
theorem pack_order_spec_witness :
    (sortedDesc ([1, 5].map (output_time am_conv_layers)) = false
        ∧ am_forward_check [1, 5] 9 = Except.error PackError.notSorted)
      ∧ ((∀ l ∈ ([2, 7] : List Int), 0 ≤ l ∧ l ≤ 7)
        ∧ lm_forward_check [2, 7] 7 = Except.ok ()) :=
  ⟨⟨by decide, pack_order_spec.1 [1, 5] 9 (by decide)⟩,
   ⟨by decide, pack_order_spec.2 [2, 7] 7 (by decide)⟩⟩

/-! ## Joint network (`Transducer.joint`, `Transducer.forward_joint`)

`src/model.py` lines 212-225.  `self.fc = Sequential(ReLU, Linear(prj, vocab))`
(lines 196-197); `joint(x, y) = log_softmax(fc(x + y), dim=-1)`.  All of these
operate elementwise over the leading axes, so the embedding applies one row
function at every leading index.  `log_softmax` is transcendental and is an
opaque row-to-row parameter `lsm`, applied along the last axis exactly as the
library broadcast does. -/

/-- `nn.ReLU` applied to a feature row. -/
def reluVec {P : Nat} (v : Fin P → ℚ) : Fin P → ℚ :=
  fun p => max (v p) 0

/-- `nn.Linear(prj_size, vocab_size)` with weight `W` and bias `bias` applied
to a feature row. -/
def linearVec {V P : Nat} (W : Fin V → Fin P → ℚ) (bias : Fin V → ℚ)
    (v : Fin P → ℚ) : Fin V → ℚ :=
  fun o => Finset.univ.sum (fun p => W o p * v p) + bias o

/-- `Transducer.fc = Sequential(ReLU(inplace=True), Linear(prj_size, vocab_size))`
(lines 196-197) on one feature row. -/
def fcRow {V P : Nat} (W : Fin V → Fin P → ℚ) (bias : Fin V → ℚ)
    (v : Fin P → ℚ) : Fin V → ℚ :=
  linearVec W bias (reluVec v)

/-- `Transducer.joint` (lines 222-225) on tensors with an arbitrary leading
index shape `ι`: `z = self.fc(x + y); z = log_softmax(z, dim=-1)`.  The sum,
`fc` and the log-normalization all act on the last axis at each leading
index. -/
def joint {ι : Type} {V P : Nat} (lsm : (Fin V → ℚ) → Fin V → ℚ)
    (W : Fin V → Fin P → ℚ) (bias : Fin V → ℚ)
    (x y : ι → Fin P → ℚ) : ι → Fin V → ℚ :=
  fun idx => lsm (fcRow W bias (fun p => x idx p + y idx p))

/-- The single-pair application of `joint`: one acoustic-step row against one
prediction-step row. -/
def joint1 {V P : Nat} (lsm : (Fin V → ℚ) → Fin V → ℚ)
    (W : Fin V → Fin P → ℚ) (bias : Fin V → ℚ)
    (x y : Fin P → ℚ) : Fin V → ℚ :=
  lsm (fcRow W bias (fun p => x p + y p))

/-- `xs.unsqueeze(dim=2).expand((n, t, u, x_h))` from line 216: broadcast the
acoustic sequence over the label-position axis. -/
def expandX {n t P : Nat} (u : Nat) (xs : Fin n → Fin t → Fin P → ℚ) :
    Fin n × Fin t × Fin u → Fin P → ℚ :=
  fun idx => xs idx.1 idx.2.1

/-- `ys.unsqueeze(dim=1).expand((n, t, u, y_h))` from line 217: broadcast the
prediction sequence over the time axis. -/
def expandY {n u P : Nat} (t : Nat) (ys : Fin n → Fin u → Fin P → ℚ) :
    Fin n × Fin t × Fin u → Fin P → ℚ :=
  fun idx => ys idx.1 idx.2.2

/-- `Transducer.forward_joint` (lines 212-220): expand both sequences to the
full (batch, time, label-position) index shape and apply `joint` once. -/
def forward_joint {n t u V P : Nat} (lsm : (Fin V → ℚ) → Fin V → ℚ)
    (W : Fin V → Fin P → ℚ) (bias : Fin V → ℚ)
    (xs : Fin n → Fin t → Fin P → ℚ) (ys : Fin n → Fin u → Fin P → ℚ) :
    Fin n × Fin t × Fin u → Fin V → ℚ :=
  joint lsm W bias (expandX u xs) (expandY t ys)

/-! ## Claim C3: all-pairs joint agrees with the single-pair joint -/

/-- C3: for every batch index `b`, acoustic timestep `t` and label position
`u`, the `(b, t, u)` slice of `forward_joint` on the two sequences equals the
single-pair `joint` of the corresponding rows — both use the same elementwise
sum, the same affine weights `W`, `bias`, and the same log-normalization
`lsm`, so the step version is not a separate approximation. -/
theorem forward_joint_agrees {n t u V P : Nat}
    (lsm : (Fin V → ℚ) → Fin V → ℚ) (W : Fin V → Fin P → ℚ) (bias : Fin V → ℚ)
    (xs : Fin n → Fin t → Fin P → ℚ) (ys : Fin n → Fin u → Fin P → ℚ)
    (b : Fin n) (ti : Fin t) (ui : Fin u) :
    forward_joint lsm W bias xs ys (b, ti, ui)
      = joint1 lsm W bias (xs b ti) (ys b ui) := rfl

/-! ## Greedy decoding (`Transducer.greedy_decode`, `src/model.py` lines 242-287)

The joint's affine part is the `fcRow` above; the prediction network's
`step_features` (embedding + LSTM step + projection, lines 155-159) is an
external recurrent primitive and enters as an opaque batch step function over
an abstract per-sample state content `σ` (the (layers, hidden) block of one
sample).  `torch.where` with the `(1, n, 1)` blank mask is a per-sample
select, so states are sample-indexed families.  The random draws of the
sampled policy (`torch.multinomial`, `torch.bernoulli`, `torch.randn_like`)
are supplied by a `Sampler`, seeded by the loop index. -/

/-- `torch.argmax(v, dim=-1)` on one row: the index of the first maximal
entry (0 for an empty row, which the source never produces). -/
def argmaxIdx {V : Nat} (v : Fin V → ℚ) : Nat :=
  ((List.finRange V).foldl
    (fun acc j =>
      match acc with
      | none => some j
      | some k => if v k < v j then some j else some k)
    none).elim 0 Fin.val

/-- The sources of randomness consumed by the sampled policy, seeded by the
timestep index: the categorical draw of `torch.multinomial(z.exp(), 1)`, the
Bernoulli draw `torch.bernoulli(ones * epsilon)`, and the Gaussian noise of
`torch.randn_like(z)`. -/
structure Sampler (n V : Nat) : Type where
  multinomial : Nat → (Fin n → Fin V → ℚ) → Fin n → Nat
  bern : Nat → Fin n → Bool
  randn : Nat → Fin n → Fin V → ℚ

/-- `LanguageModel.step_init` (lines 167-170): a zero-valued RecurrentState
pair of shape (layers, batch, hidden); `zero` is the all-zero per-sample
state content. -/
def step_init {σ : Type} (n : Nat) (zero : σ) : (Fin n → σ) × (Fin n → σ) :=
  (fun _ => zero, fun _ => zero)

/-- The synthetic start symbol of the decode loop, line 251:
`c = torch.zeros((1, n), dtype=torch.long)` — the literal constant 0. -/
def greedy_start (n : Nat) : Fin n → Nat :=
  fun _ => 0

/-- The synthetic start row prepended by `LanguageModel.forward`, line 142:
`init = torch.zeros((1, x.shape[1]), dtype=torch.long)` — again the literal
constant 0. -/
def lm_forward_init (n : Nat) : Fin n → Nat :=
  fun _ => 0

/-- `torch.cat([init, x.long()])` from line 143: the start row followed by
the symbol history (time-major rows). -/
def lm_forward_cat {n : Nat} (ys : List (Fin n → Nat)) : List (Fin n → Nat) :=
  lm_forward_init n :: ys

/-- The per-sample decoder state carried between timesteps: the cached
prediction-step representation `yd[0]` and the RecurrentState `(hd, cd)`. -/
structure DecState (n P : Nat) (σ : Type) : Type where
  yd : Fin n → Fin P → ℚ
  hd : Fin n → σ
  cd : Fin n → σ

/-- The fixed data of one `greedy_decode` call: the joint head's weights, the
opaque log-normalization, the opaque prediction-network step, the acoustic
input `xs` of shape (n, T, P), the optional log-domain prior, and the blank
id. -/
structure DecodeEnv (n T V P : Nat) (σ : Type) : Type where
  fcW : Fin V → Fin P → ℚ
  fcB : Fin V → ℚ
  lsm : (Fin V → ℚ) → Fin V → ℚ
  stepF : (Fin n → Nat) → ((Fin n → σ) × (Fin n → σ)) →
    (Fin n → Fin P → ℚ) × ((Fin n → σ) × (Fin n → σ))
  zeroS : σ
  xs : Fin n → Fin T → Fin P → ℚ
  prior : Option (Fin V → ℚ)
  blank : Nat

/-- Lines 257-260: `z = self.joint(xs[:, i], yd[0]); if prior is not None:
z -= prior`. -/
def decodeZ {n T V P : Nat} {σ : Type} (env : DecodeEnv n T V P σ)
    (i : Fin T) (st : DecState n P σ) : Fin n → Fin V → ℚ :=
  let z := joint env.lsm env.fcW env.fcB (fun s => env.xs s i) st.yd
  match env.prior with
  | none => z
  | some pr => fun s v => z s v - pr v

/-- Lines 262-269: symbol selection — the sampled policy draws from the
categorical distribution (with optional epsilon-noise replacement via
`torch.where(e.bool(), r, c)`), the argmax policy takes
`torch.argmax(z, dim=-1)`. -/
def selectSym {n V : Nat} (smp : Sampler n V) (sampled : Bool) (epsilon : ℚ)
    (i : Nat) (z : Fin n → Fin V → ℚ) : Fin n → Nat :=
  if sampled then
    let c := smp.multinomial i z
    if 0 < epsilon then
      fun s => if smp.bern i s then argmaxIdx (smp.randn i s) else c s
    else c
  else
    fun s => argmaxIdx (z s)

/-- One iteration of the decode loop (lines 255-285): compute `z`, select the
symbol `c`, run one prediction-network step on `c` to get the candidate
`(yd_next, (hd_next, cd_next))`, and keep the previous state exactly at the
samples whose emitted symbol is blank (`torch.where(mask, old, next)` with
`mask = (c == self.blank)` broadcast per sample).  Returns the emitted
symbols, the recorded distribution, and the next state. -/
def decodeStep {n T V P : Nat} {σ : Type} (env : DecodeEnv n T V P σ)
    (smp : Sampler n V) (sampled : Bool) (epsilon : ℚ)
    (i : Fin T) (st : DecState n P σ) :
    (Fin n → Nat) × (Fin n → Fin V → ℚ) × DecState n P σ :=
  let z := decodeZ env i st
  let c := selectSym smp sampled epsilon i.val z
  let next := env.stepF c (st.hd, st.cd)
  ⟨c, z,
    { yd := fun s => if c s = env.blank then st.yd s else next.1 s,
      hd := fun s => if c s = env.blank then st.hd s else next.2.1 s,
      cd := fun s => if c s = env.blank then st.cd s else next.2.2 s }⟩

/-- Lines 251-253: the initial state — one `step_features` call on the
synthetic start symbol with no incoming state (the library initializes the
absent state to the `step_init` zeros). -/
def decodeInit {n T V P : Nat} {σ : Type} (env : DecodeEnv n T V P σ) :
    DecState n P σ :=
  let r := env.stepF (greedy_start n) (step_init n env.zeroS)
  ⟨r.1, r.2.1, r.2.2⟩

/-- The decoder state after `k` loop iterations. -/
def stateAfter {n T V P : Nat} {σ : Type} (env : DecodeEnv n T V P σ)
    (smp : Sampler n V) (sampled : Bool) (epsilon : ℚ) : Nat → DecState n P σ
  | 0 => decodeInit env
  | k + 1 =>
      if h : k < T then
        (decodeStep env smp sampled epsilon ⟨k, h⟩
          (stateAfter env smp sampled epsilon k)).2.2
      else stateAfter env smp sampled epsilon k

/-- The symbols emitted at timestep `t` (the `c` recorded into `s[:, i]`
when `argmax=True`). -/
def emitted {n T V P : Nat} {σ : Type} (env : DecodeEnv n T V P σ)
    (smp : Sampler n V) (sampled : Bool) (epsilon : ℚ) (t : Fin T) :
    Fin n → Nat :=
  (decodeStep env smp sampled epsilon t (stateAfter env smp sampled epsilon t.val)).1

/-- The distribution recorded at timestep `t` (the `z` recorded into
`s[:, i]` when `argmax=False`). -/
def distAt {n T V P : Nat} {σ : Type} (env : DecodeEnv n T V P σ)
    (smp : Sampler n V) (sampled : Bool) (epsilon : ℚ) (t : Fin T) :
    Fin n → Fin V → ℚ :=
  (decodeStep env smp sampled epsilon t (stateAfter env smp sampled epsilon t.val)).2.1

/-- The decode output: an (n, T) array of integer symbols or an (n, T, V)
array of distributions, stored timestep-major (entry `i` of the list is the
column `s[:, i]`). -/
inductive DecodeOut (n V : Nat) : Type
  | symbols (s : List (Fin n → Nat))
  | dists (s : List (Fin n → Fin V → ℚ))

/-- `Transducer.greedy_decode` (lines 242-287): run the loop for every one of
the `T` acoustic timesteps and return the recorded symbols (`argmax=True`) or
distributions (`argmax=False`). -/
def greedy_decode {n T V P : Nat} {σ : Type} (env : DecodeEnv n T V P σ)
    (smp : Sampler n V) (sampled : Bool) (epsilon : ℚ) (argmax : Bool) :
    DecodeOut n V :=
  if argmax then
    .symbols ((List.finRange T).map (fun i => emitted env smp sampled epsilon i))
  else
    .dists ((List.finRange T).map (fun i => distAt env smp sampled epsilon i))

/-- The observable shape of a decode output: which mode it is in and how many
timestep columns it holds. -/
def outShape {n V : Nat} : DecodeOut n V → Bool × Nat
  | .symbols s => (true, s.length)
  | .dists s => (false, s.length)

/-- Helper: extensionality for the decoder state. -/
theorem decState_ext {n P : Nat} {σ : Type} {a b : DecState n P σ}
    (h1 : a.yd = b.yd) (h2 : a.hd = b.hd) (h3 : a.cd = b.cd) : a = b := by
  cases a with
  | mk ay ah ac =>
      cases b with
      | mk b1 b2 b3 =>
          dsimp at h1 h2 h3
          subst h1
          subst h2
          subst h3
          rfl

/-! ## Claim C1: the blank state-carry invariant -/

/-- C1: at every timestep `t` and for every sample `i`, the state after the
step (prediction representation, hidden and cell components) equals the
previous state exactly when the emitted symbol is blank, and otherwise equals
the candidate produced by one prediction-network step on the emitted symbols —
a per-sample conditional select, so samples within one batch may diverge. -/
theorem state_carry {n T V P : Nat} {σ : Type} (env : DecodeEnv n T V P σ)
    (smp : Sampler n V) (sampled : Bool) (epsilon : ℚ) (t : Fin T) (i : Fin n) :
    (stateAfter env smp sampled epsilon (t.val + 1)).yd i
        = (if emitted env smp sampled epsilon t i = env.blank
            then (stateAfter env smp sampled epsilon t.val).yd i
            else (env.stepF (emitted env smp sampled epsilon t)
              ((stateAfter env smp sampled epsilon t.val).hd,
               (stateAfter env smp sampled epsilon t.val).cd)).1 i)
      ∧ (stateAfter env smp sampled epsilon (t.val + 1)).hd i
        = (if emitted env smp sampled epsilon t i = env.blank
            then (stateAfter env smp sampled epsilon t.val).hd i
            else (env.stepF (emitted env smp sampled epsilon t)
              ((stateAfter env smp sampled epsilon t.val).hd,
               (stateAfter env smp sampled epsilon t.val).cd)).2.1 i)
      ∧ (stateAfter env smp sampled epsilon (t.val + 1)).cd i
        = (if emitted env smp sampled epsilon t i = env.blank
            then (stateAfter env smp sampled epsilon t.val).cd i
            else (env.stepF (emitted env smp sampled epsilon t)
              ((stateAfter env smp sampled epsilon t.val).hd,
               (stateAfter env smp sampled epsilon t.val).cd)).2.2 i) := by
  have hstep : stateAfter env smp sampled epsilon (t.val + 1)
      = (decodeStep env smp sampled epsilon t
          (stateAfter env smp sampled epsilon t.val)).2.2 := by
    show (if h : t.val < T then _ else _) = _
    rw [dif_pos t.isLt, Fin.eta]
  rw [hstep]
  exact ⟨rfl, rfl, rfl⟩

/-! ## Claim C2: the all-blank single-sample decode -/

/-- Helper: a step all of whose emitted symbols are blank leaves the decoder
state exactly unchanged. -/
theorem blank_step_preserves {n T V P : Nat} {σ : Type}
    (env : DecodeEnv n T V P σ) (smp : Sampler n V) (sampled : Bool)
    (epsilon : ℚ) (k : Nat) (hk : k < T)
    (hb : ∀ i, emitted env smp sampled epsilon ⟨k, hk⟩ i = env.blank) :
    stateAfter env smp sampled epsilon (k + 1)
      = stateAfter env smp sampled epsilon k := by
  show (if h : k < T then _ else _) = _
  rw [dif_pos hk]
  refine decState_ext ?_ ?_ ?_ <;> funext s
  · exact if_pos (hb s)
  · exact if_pos (hb s)
  · exact if_pos (hb s)

/-- Helper: if every timestep of the run emits only blanks, the state never
moves from its initial value. -/
theorem all_blank_state_const {n T V P : Nat} {σ : Type}
    (env : DecodeEnv n T V P σ) (smp : Sampler n V) (sampled : Bool)
    (epsilon : ℚ)
    (hb : ∀ (t : Fin T) (i : Fin n), emitted env smp sampled epsilon t i = env.blank)
    (k : Nat) :
    stateAfter env smp sampled epsilon k = decodeInit env := by
  induction k with
  | zero => rfl
  | succ k ih =>
      by_cases h : k < T
      · rw [blank_step_preserves env smp sampled epsilon k h (hb ⟨k, h⟩), ih]
      · show (if h : k < T then _ else _) = _
        rw [dif_neg h, ih]

/-- C2 (amended): in a decode run in which every timestep's selection is the
blank symbol, the RecurrentState held after the loop equals the state
produced by the initial `step_features` call on the synthetic start symbol
from the `step_init` zero state (line 253) — the loop preserves that
post-start state, it does not rewind to the `step_init` zeros themselves. -/
theorem all_blank_final_state {n T V P : Nat} {σ : Type}
    (env : DecodeEnv n T V P σ) (smp : Sampler n V) (sampled : Bool)
    (epsilon : ℚ)
    (hb : ∀ (t : Fin T) (i : Fin n), emitted env smp sampled epsilon t i = env.blank) :
    (stateAfter env smp sampled epsilon T).hd
        = (env.stepF (greedy_start n) (step_init n env.zeroS)).2.1
      ∧ (stateAfter env smp sampled epsilon T).cd
        = (env.stepF (greedy_start n) (step_init n env.zeroS)).2.2 := by
  rw [all_blank_state_const env smp sampled epsilon hb T]
  exact ⟨rfl, rfl⟩

/-- A concrete single-sample instantiation (n = T = V = P = 1, blank = 0)
whose opaque prediction step moves the zero state to the all-ones state, as a
recurrent cell with non-zero biases legitimately does. -/
def envC2 : DecodeEnv 1 1 1 1 ℚ where
  fcW := fun _ _ => 0
  fcB := fun _ => 0
  lsm := fun v => v
  stepF := fun _ _ => (fun _ _ => 0, (fun _ => 1, fun _ => 1))
  zeroS := 0
  xs := fun _ _ _ => 0
  prior := none
  blank := 0

/-- A trivial sampler (never consulted on the argmax path). -/
def smpTriv : Sampler 1 1 where
  multinomial := fun _ _ _ => 0
  bern := fun _ _ => false
  randn := fun _ _ _ => 0

/-- C2 counterexample: in this single-sample run every timestep's argmax is
blank (the vocabulary has size 1, so the argmax is always 0 = blank), yet the
final RecurrentState is the all-ones post-start-symbol state, not the
zero-valued `step_init` state. -/
theorem all_blank_final_state_counterexample :
    (∀ (t : Fin 1) (i : Fin 1), emitted envC2 smpTriv false 0 t i = envC2.blank)
      ∧ (stateAfter envC2 smpTriv false 0 1).hd 0 ≠ (step_init 1 envC2.zeroS).1 0 := by
  constructor
  · decide
  · decide

/-- Witness for C2 (amended), on the same concrete all-blank run. -/
theorem all_blank_final_state_witness :
    (∀ (t : Fin 1) (i : Fin 1), emitted envC2 smpTriv false 0 t i = envC2.blank)
      ∧ (stateAfter envC2 smpTriv false 0 1).hd
          = (envC2.stepF (greedy_start 1) (step_init 1 envC2.zeroS)).2.1
      ∧ (stateAfter envC2 smpTriv false 0 1).cd
          = (envC2.stepF (greedy_start 1) (step_init 1 envC2.zeroS)).2.2 :=
  ⟨by decide,
   (all_blank_final_state envC2 smpTriv false 0 (by decide)).1,
   (all_blank_final_state envC2 smpTriv false 0 (by decide)).2⟩

/-! ## Claim C6: the loop always runs exactly T times, output shape -/

/-- C6: for every acoustic input of shape (n, T, P), `greedy_decode` runs its
loop exactly `T` times — it never early-terminates for any sample, whatever
symbols are emitted — and returns `T` timestep columns of integer symbols in
symbol-output mode, or `T` columns of vocabulary distributions in
distribution-output mode. -/
theorem greedy_decode_shape {n T V P : Nat} {σ : Type} (env : DecodeEnv n T V P σ)
    (smp : Sampler n V) (sampled : Bool) (epsilon : ℚ) (argmax : Bool) :
    outShape (greedy_decode env smp sampled epsilon argmax) = (argmax, T) := by
  cases argmax <;>
    simp [greedy_decode, outShape, List.length_map, List.length_finRange]

/-! ## Claim C7: argmax decoding is deterministic -/

/-- C7: with the argmax selection policy (`sampled = False`), two runs of
`greedy_decode` on the same acoustic input, same prior and same weights
produce identical outputs whatever the random sources are — no randomness is
consumed on the argmax path. -/
theorem greedy_decode_deterministic {n T V P : Nat} {σ : Type}
    (env : DecodeEnv n T V P σ) (smp1 smp2 : Sampler n V) (epsilon : ℚ)
    (argmax : Bool) :
    greedy_decode env smp1 false epsilon argmax
      = greedy_decode env smp2 false epsilon argmax := by
  have hstate : ∀ k, stateAfter env smp1 false epsilon k
      = stateAfter env smp2 false epsilon k := by
    intro k
    induction k with
    | zero => rfl
    | succ k ih =>
        show (if h : k < T then _ else _) = (if h : k < T then _ else _)
        by_cases h : k < T
        · rw [dif_pos h, dif_pos h, ih]
          rfl
        · rw [dif_neg h, dif_neg h, ih]
  have hemit : (fun i => emitted env smp1 false epsilon i)
      = fun i => emitted env smp2 false epsilon i := by
    funext i
    unfold emitted
    rw [hstate]
    rfl
  have hdist : (fun i => distAt env smp1 false epsilon i)
      = fun i => distAt env smp2 false epsilon i := by
    funext i
    unfold distAt
    rw [hstate]
    rfl
  unfold greedy_decode
  cases argmax with
  | false =>
      rw [hdist]
      rfl
  | true =>
      rw [hemit]
      rfl

/-! ## Claim C10: the start symbol is the literal 0, not the blank id -/

/-- C10: the synthetic start-of-sequence symbol is the literal constant 0 —
both as the row prepended to the symbol history in sequence mode and as the
symbol initializing the decode loop's first prediction step — so whenever the
configured blank id differs from 0 the start symbol is not the blank
symbol. -/
theorem start_symbol_literal_zero (n blank : Nat) (hb : blank ≠ 0) (i : Fin n)
    (ys : List (Fin n → Nat)) :
    greedy_start n i = 0 ∧ lm_forward_init n i = 0
      ∧ (lm_forward_cat ys).head? = some (lm_forward_init n)
      ∧ greedy_start n i ≠ blank ∧ lm_forward_init n i ≠ blank :=
  ⟨rfl, rfl, rfl, fun h => hb h.symm, fun h => hb h.symm⟩

/-- Witness for C10: a model configured with blank id 1. -/
theorem start_symbol_literal_zero_witness :
    (1 : Nat) ≠ 0
      ∧ (greedy_start 1 0 = 0 ∧ lm_forward_init 1 0 = 0
        ∧ (lm_forward_cat ([] : List (Fin 1 → Nat))).head? = some (lm_forward_init 1)
        ∧ greedy_start 1 0 ≠ 1 ∧ lm_forward_init 1 0 ≠ 1) :=
  ⟨by decide, start_symbol_literal_zero 1 1 (by decide) 0 []⟩
